import Mathlib

set_option maxRecDepth 8000

/-!
Shallow embedding of the reconciliation and schema-synchronization engine of
the notion-api-import-excel-mongo repository.  The repository contains two
scripts, `subir_mongo_notion.cjs` (MongoDB source) and the Excel variant,
which share the same core: property mapping (`mapProperties`), schema
synchronization (`ensurePropertiesExist`), duplicate detection and record
partitioning (`exportToNotion`), and record writing with retry
(`addNonDuplicateRecords`, `updateDuplicateRecords`).

JavaScript values occurring in source records are modelled by `JValue`
(numbers as integers); JavaScript objects and `Map`s are modelled as
association lists with `getKey`/`setKey` carrying exact JS semantics
(`Map.set` replaces in place, object index returns undefined = `none` for a
missing key).  The remote destination is modelled by the data it answers
with (current schema as a `String → Option String` name-to-type map, the
record list returned by the paginated query) and, for fallible write calls,
by an explicit outcome parameter.  Functions that only perform console I/O
are omitted; loops that both compute and perform writes are split into the
pure value they compute (payloads, partitions) and the trace of remote
calls they issue.
-/

/-- Assoc-object lookup: JavaScript `m[k]` (or `Map.get`), returning `none`
for undefined when the key is absent. -/
def getKey {α : Type} (m : List (String × α)) (k : String) : Option α :=
  match m with
  | [] => none
  | p :: rest => if p.1 = k then some p.2 else getKey rest k

/-- Assoc-object write: JavaScript `m[k] = v` / `Map.set(k, v)`.  An existing
key has its value replaced in place; a new key is appended at the end. -/
def setKey {α : Type} (m : List (String × α)) (k : String) (v : α) :
    List (String × α) :=
  match m with
  | [] => [(k, v)]
  | p :: rest => if p.1 = k then (k, v) :: rest else p :: setKey rest k v

/-- A JavaScript value stored in a source record (a MongoDB document or a
spreadsheet row): null, a string, a number (modelled as an integer), or a
boolean.  An absent key plays the role of undefined and surfaces as `none`
from `recordGet`. -/
inductive JValue where
  | vnull : JValue
  | vstr (s : String) : JValue
  | vnum (n : Int) : JValue
  | vbool (b : Bool) : JValue
deriving DecidableEq

/-- JavaScript `String(value)` for the values of `JValue`. -/
def jstr : JValue → String
  | JValue.vnull => "null"
  | JValue.vstr s => s
  | JValue.vnum n => toString n
  | JValue.vbool b => if b then "true" else "false"

/-- A JavaScript whitespace character as far as the scripts' inputs are
concerned. -/
def isJsSpace (c : Char) : Bool :=
  c == ' ' || c == '\t' || c == '\n' || c == '\r'

/-- Model of JavaScript `String.prototype.trim`. -/
def jsTrim (s : String) : String :=
  String.mk (((s.toList.dropWhile isJsSpace).reverse.dropWhile isJsSpace).reverse)

/-- Model of JavaScript `String.prototype.toLowerCase` (ASCII). -/
def jsToLower (s : String) : String :=
  String.mk (s.toList.map Char.toLower)

/-- Splitting loop for `splitComma`, keeping empty segments exactly as the
JavaScript `split` does. -/
def splitCommaAux (acc : List Char) : List Char → List (List Char)
  | [] => [acc.reverse]
  | c :: rest =>
    if c = ',' then acc.reverse :: splitCommaAux [] rest
    else splitCommaAux (c :: acc) rest

/-- Model of JavaScript `String.prototype.split(",")`. -/
def splitComma (s : String) : List String :=
  (splitCommaAux [] s.toList).map (fun cs => String.mk cs)

/-- A source record: one MongoDB document or one spreadsheet row, as an
ordered field-to-value object. -/
abbrev SourceRecord := List (String × JValue)

/-- Field access `doc[field]` on a source record. -/
def recordGet (doc : SourceRecord) (field : String) : Option JValue :=
  getKey doc field

/-- One rich-text segment of a destination `title` or `rich_text` property
value. -/
structure RichText where
  plain_text : String
deriving DecidableEq

/-- A destination property value as returned by the destination query.  Every
per-type payload is optional, mirroring that a JS property object carries
only the payload of its own type and that reading any other payload field
yields undefined. -/
structure NotionProperty where
  url : Option String := none
  phone_number : Option String := none
  rich_text : Option (List RichText) := none
  title : Option (List RichText) := none
  email : Option String := none
  number : Option Int := none
  select : Option String := none
  status : Option String := none
  multi_select : List String := []
  checkbox : Bool := false
deriving DecidableEq

/-- An existing destination record (page): an opaque identity plus its
property values keyed by property name. -/
structure NotionRecord where
  id : String
  properties : List (String × NotionProperty)
deriving DecidableEq

namespace Mongo

/-- Function `getPropertyValue` of `subir_mongo_notion.cjs` (lines 370-385):
plain-text extraction of a destination property value.  `url` and
`phone_number` pass their scalar through (empty for null), `rich_text` and
`title` concatenate their segments' plain text, every other type falls to
the default branch returning the empty string.  A falsy property or type
argument returns the empty string up front. -/
def getPropertyValue (property : Option NotionProperty) (type : Option String) :
    String :=
  match property, type with
  | some p, some t =>
    if t = "url" then p.url.getD ""
    else if t = "phone_number" then p.phone_number.getD ""
    else if t = "rich_text" then
      String.join ((p.rich_text.getD []).map (fun rt => rt.plain_text))
    else if t = "title" then
      String.join ((p.title.getD []).map (fun tt => tt.plain_text))
    else ""
  | _, _ => ""

/-- One step of the DuplicateIndex fill loop of `exportToNotion`
(`subir_mongo_notion.cjs` lines 579-589): the value a destination record
contributes to the index for `field`, or `none` when the record lacks the
property, the field has no known type, or the extracted value is empty
(falsy), in which case nothing is inserted. -/
def recordIndexValue (record : NotionRecord) (field : String)
    (ptype : Option String) : Option String :=
  match getKey record.properties field, ptype with
  | some prop, some t =>
    let value := getPropertyValue (some prop) (some t)
    if value ≠ "" then some value else none
  | _, _ => none

/-- Fill loop of the per-field DuplicateIndex map, walking the fetched
destination records in scan order and calling `Map.set` for each non-empty
extracted value. -/
def buildFieldIndexGo (field : String) (ptype : Option String)
    (m : List (String × String)) : List NotionRecord → List (String × String)
  | [] => m
  | record :: rest =>
    buildFieldIndexGo field ptype
      (match recordIndexValue record field ptype with
       | some value => setKey m value record.id
       | none => m) rest

/-- The DuplicateIndex slice for one key field: stringified value mapped to
destination record identity, built from a full scan of the destination
records (`exportToNotion`, lines 564-589). -/
def buildFieldIndex (records : List NotionRecord) (field : String)
    (ptype : Option String) : List (String × String) :=
  buildFieldIndexGo field ptype [] records

end Mongo

namespace Excel

/-- Function `getPropertyValue` of the Excel script (part_001 lines 154-185):
same as the Mongo variant for `url`, `phone_number`, `rich_text`, `title`,
and additionally handles `email`, `number` (stringified, empty for null),
`select`/`status` (tag name, empty for null), `multi_select` (names joined
with commas) and `checkbox` ("true"/"false"); every other type falls to the
default branch returning the empty string. -/
def getPropertyValue (property : Option NotionProperty) (type : Option String) :
    String :=
  match property, type with
  | some p, some t =>
    if t = "url" then p.url.getD ""
    else if t = "phone_number" then p.phone_number.getD ""
    else if t = "rich_text" then
      String.join ((p.rich_text.getD []).map (fun rt => rt.plain_text))
    else if t = "title" then
      String.join ((p.title.getD []).map (fun tt => tt.plain_text))
    else if t = "email" then p.email.getD ""
    else if t = "number" then
      match p.number with
      | some n => toString n
      | none => ""
    else if t = "select" then p.select.getD ""
    else if t = "status" then p.status.getD ""
    else if t = "multi_select" then String.intercalate "," p.multi_select
    else if t = "checkbox" then (if p.checkbox then "true" else "false")
    else ""
  | _, _ => ""

end Excel

/-- A JavaScript number as produced by `parseFloat`: NaN or a finite value
(modelled as a rational, covering integer and decimal-fraction literals). -/
inductive JNum where
  | nan : JNum
  | num (q : Rat) : JNum
deriving DecidableEq

/-- Digit-list to natural number accumulator used by the `parseFloat`
model. -/
def parseFloatDigits (cs : List Char) : Nat :=
  cs.foldl (fun acc c => acc * 10 + (c.toNat - 48)) 0

/-- Model of JavaScript `parseFloat` restricted to the shapes the scripts
feed it (stringified record values): optional leading whitespace, optional
sign, decimal digits with an optional fractional part.  No digits at all
(in particular the empty string) gives NaN.  Exponents and Infinity are not
modelled. -/
def parseFloat (s : String) : JNum :=
  let cs := s.toList.dropWhile isJsSpace
  let signed : Int × List Char :=
    match cs with
    | '-' :: rest => (-1, rest)
    | '+' :: rest => (1, rest)
    | _ => (1, cs)
  let intPart := signed.2.takeWhile Char.isDigit
  let afterInt := signed.2.dropWhile Char.isDigit
  let fracPart :=
    match afterInt with
    | '.' :: rest => rest.takeWhile Char.isDigit
    | _ => []
  if intPart.isEmpty && fracPart.isEmpty then JNum.nan
  else
    JNum.num ((signed.1 : Rat) *
      ((parseFloatDigits intPart : Rat) +
        (parseFloatDigits fracPart : Rat) / ((10 : Rat) ^ fracPart.length)))

/-- The typed payload `buildPropertyPayload` produces for one destination
property.  `title` and `rich_text` carry the single text segment the source
wraps the string in; `files` carries the fixed name "Archivo" plus the
external URL. -/
inductive PropertyPayload where
  | title (content : String)
  | files (name : String) (url : String)
  | date (start : String)
  | checkbox (value : Bool)
  | url (value : String)
  | email (value : String)
  | phone_number (value : String)
  | number (value : JNum)
  | select (name : String)
  | status (name : String)
  | multi_select (names : List String)
  | rich_text (content : String)
deriving DecidableEq

/-- Function `buildPropertyPayload` (identical in both scripts): the per-type
switch from a property type and a stringified value to the destination
payload.  `checkbox` is true iff the lowercased string equals "true",
`number` applies `parseFloat`, `multi_select` splits on commas and trims
each token, and the default branch wraps the string as rich text. -/
def buildPropertyPayload (propertyType : String) (stringValue : String) :
    PropertyPayload :=
  if propertyType = "title" then PropertyPayload.title stringValue
  else if propertyType = "files" then PropertyPayload.files "Archivo" stringValue
  else if propertyType = "date" then PropertyPayload.date stringValue
  else if propertyType = "checkbox" then
    PropertyPayload.checkbox (jsToLower stringValue == "true")
  else if propertyType = "url" then PropertyPayload.url stringValue
  else if propertyType = "email" then PropertyPayload.email stringValue
  else if propertyType = "phone_number" then
    PropertyPayload.phone_number stringValue
  else if propertyType = "number" then
    PropertyPayload.number (parseFloat stringValue)
  else if propertyType = "select" then PropertyPayload.select stringValue
  else if propertyType = "status" then PropertyPayload.status stringValue
  else if propertyType = "multi_select" then
    PropertyPayload.multi_select
      ((splitComma stringValue).map (fun v => jsTrim v))
  else PropertyPayload.rich_text stringValue

/-- The stringification applied to each record value before payload building:
`value !== undefined && value !== null ? String(value) : ""`.  Entries of a
record object are never undedfined, so only the null case coerces. -/
def stringValueOf (value : JValue) : String :=
  match value with
  | JValue.vnull => ""
  | v => jstr v

/-- Loop body of `buildPagePayload`: walks the record's entries in order,
assigning the typed payload under the mapped property name and collecting
one external image URL for each non-empty `files` value.  `sp` is the
property mapping, assumed defined on every record key (which `mapProperties`
guarantees, the headers being the union of record keys). -/
def buildPagePayloadGo (sp : String → String × String)
    (properties : List (String × PropertyPayload)) (children : List String) :
    SourceRecord → List (String × PropertyPayload) × List String
  | [] => (properties, children)
  | (header, value) :: rest =>
    let propName := (sp header).1
    let propType := (sp header).2
    let stringValue := stringValueOf value
    buildPagePayloadGo sp
      (setKey properties propName (buildPropertyPayload propType stringValue))
      (if propType = "files" ∧ stringValue ≠ "" then children ++ [stringValue]
       else children)
      rest

/-- Function `buildPagePayload` (identical in both scripts): the properties
object and the auxiliary image-block URLs for one record. -/
def buildPagePayload (entry : SourceRecord) (sp : String → String × String) :
    List (String × PropertyPayload) × List String :=
  buildPagePayloadGo sp [] [] entry

/-- Inner loop of `updateDuplicateRecords`: the properties object written by
an update call.  When `updateOnlyNewProperties` is set, entries whose field
name is not in the newly-created list are skipped. -/
def updatePropertiesGo (updateOnlyNewProperties : Bool)
    (newProperties : List String) (sp : String → String × String)
    (acc : List (String × PropertyPayload)) :
    SourceRecord → List (String × PropertyPayload)
  | [] => acc
  | (header, value) :: rest =>
    if updateOnlyNewProperties = true ∧ header ∉ newProperties then
      updatePropertiesGo updateOnlyNewProperties newProperties sp acc rest
    else
      updatePropertiesGo updateOnlyNewProperties newProperties sp
        (setKey acc (sp header).1
          (buildPropertyPayload (sp header).2 (stringValueOf value)))
        rest

/-- The properties object one duplicate update writes
(`updateDuplicateRecords`, lines 457-464 of `subir_mongo_notion.cjs`). -/
def updateDuplicateProperties (updateOnlyNewProperties : Bool)
    (newProperties : List String) (sp : String → String × String)
    (entry : SourceRecord) : List (String × PropertyPayload) :=
  updatePropertiesGo updateOnlyNewProperties newProperties sp [] entry

/-- Per-record duplicate probe of `exportToNotion` (lines 595-610): the key
fields are walked in the caller-supplied order; a field is consulted only
when the record's value is neither undefined nor null; the first field whose
stringified value is present in that field's index slice yields the matched
identity and the loop breaks; exhaustion yields `none`. -/
def checkDuplicate (index : String → List (String × String))
    (doc : SourceRecord) : List String → Option String
  | [] => none
  | field :: rest =>
    match recordGet doc field with
    | some docValue =>
      if docValue ≠ JValue.vnull then
        match getKey (index field) (jstr docValue) with
        | some recordId => some recordId
        | none => checkDuplicate index doc rest
      else checkDuplicate index doc rest
    | none => checkDuplicate index doc rest

/-- Duplicate-with-new-information test of `exportToNotion` under policy 2
(lines 619-625): some newly-created property has a value on the record that
is not undefined, not null and not the empty string. -/
def hasNewPropertyValues (newProperties : List String) (doc : SourceRecord) :
    Bool :=
  newProperties.any (fun prop =>
    match recordGet doc prop with
    | some v => decide (v ≠ JValue.vnull ∧ v ≠ JValue.vstr "")
    | none => false)

/-- The two lists `exportToNotion` accumulates while partitioning the source
records: duplicates queued for update (with the matched identity, always
pushed with `updateOnlyNewProperties: true`) and non-duplicates queued for
creation. -/
structure Classified where
  duplicatesForUpdate : List (String × SourceRecord)
  nonDuplicatesToAdd : List SourceRecord
deriving DecidableEq

/-- Partition loop of `exportToNotion` (lines 595-637): each source record is
probed with `checkDuplicate`; a duplicate is dropped under policy 1, queued
for update under policy 2 exactly when `hasNewPropertyValues` holds, and a
non-duplicate is queued for creation. -/
def classifyRecords (index : String → List (String × String))
    (duplicateCheckFields : List String) (newProperties : List String)
    (duplicateOption : String) : List SourceRecord → Classified
  | [] => { duplicatesForUpdate := [], nonDuplicatesToAdd := [] }
  | doc :: rest =>
    let c := classifyRecords index duplicateCheckFields newProperties
      duplicateOption rest
    match checkDuplicate index doc duplicateCheckFields with
    | some recordId =>
      if duplicateOption = "1" then c
      else if duplicateOption = "2" then
        if hasNewPropertyValues newProperties doc then
          { duplicatesForUpdate := (recordId, doc) :: c.duplicatesForUpdate,
            nonDuplicatesToAdd := c.nonDuplicatesToAdd }
        else c
      else c
    | none =>
      { duplicatesForUpdate := c.duplicatesForUpdate,
        nonDuplicatesToAdd := doc :: c.nonDuplicatesToAdd }

/-- The write plan a run of `exportToNotion` commits to: the duplicate
records it passes to `updateDuplicateRecords` and the records it passes to
`addNonDuplicateRecords`. -/
structure ExportPlan where
  toUpdate : List (String × SourceRecord)
  toCreate : List SourceRecord
deriving DecidableEq

/-- Function `exportToNotion` (lines 544-660), reduced to the plan it
executes.  Policy 3 returns immediately with every record queued for
creation (no destination fetch, no index).  Policies 1 and 2 build the
per-field DuplicateIndex from the fetched destination records and the
current schema (`currentProperties`, name to type), partition the data, and
pass the update queue on only under policy 2 (under policy 1 it is empty
anyway). -/
def exportToNotionPlan (data : List SourceRecord)
    (allRecords : List NotionRecord)
    (currentProperties : String → Option String)
    (duplicateCheckFields : List String) (duplicateOption : String)
    (newProperties : List String) : ExportPlan :=
  if duplicateOption = "3" then { toUpdate := [], toCreate := data }
  else
    let index := fun field =>
      Mongo.buildFieldIndex allRecords field (currentProperties field)
    let c := classifyRecords index duplicateCheckFields newProperties
      duplicateOption data
    { toUpdate :=
        if duplicateOption = "2" then c.duplicatesForUpdate else [],
      toCreate := c.nonDuplicatesToAdd }

/-- Diff loop of `ensurePropertiesExist` (lines 307-318): the
`propertiesToAdd` and `propertiesToUpdate` objects (property name to type),
built over the headers against the freshly retrieved destination schema
`cp`. -/
def schemaDiffGo (cp : String → Option String) (sp : String → String × String)
    (toAdd toUpd : List (String × String)) :
    List String → List (String × String) × List (String × String)
  | [] => (toAdd, toUpd)
  | header :: rest =>
    let propName := (sp header).1
    let propType := (sp header).2
    match cp propName with
    | none => schemaDiffGo cp sp (setKey toAdd propName propType) toUpd rest
    | some currentType =>
      if currentType ≠ propType then
        schemaDiffGo cp sp toAdd (setKey toUpd propName propType) rest
      else schemaDiffGo cp sp toAdd toUpd rest

/-- Body of `ensurePropertiesExist` (lines 299-337) before its catch clause:
computes the schema diff, issues the single batched schema update when
either part is non-empty (its outcome supplied by `updateOutcome`), and
returns the names of the added properties.  A rejected update surfaces here
as `Except.error`. -/
def ensurePropertiesExistE (cp : String → Option String)
    (headers : List String) (sp : String → String × String)
    (updateOutcome : Except String Unit) : Except String (List String) :=
  let d := schemaDiffGo cp sp [] [] headers
  let newProps := d.1.map Prod.fst
  if d.1.length > 0 ∨ d.2.length > 0 then
    match updateOutcome with
    | Except.error e => Except.error e
    | Except.ok _ => Except.ok newProps
  else Except.ok newProps

/-- Function `ensurePropertiesExist` as the caller sees it: the whole body is
wrapped in try/catch, and the catch clause logs the error and returns the
empty list, so the function never propagates a failure. -/
def ensurePropertiesExist (cp : String → Option String)
    (headers : List String) (sp : String → String × String)
    (updateOutcome : Except String Unit) : List String :=
  match ensurePropertiesExistE cp headers sp updateOutcome with
  | Except.error _ => []
  | Except.ok l => l

/-- The twenty property types offered by the customization prompt of
`mapProperties` (lines 253-258). -/
def propertyTypes : List String :=
  ["rich_text", "title", "number", "select", "multi_select",
   "date", "people", "files", "checkbox", "url", "email",
   "phone_number", "formula", "relation", "rollup", "created_time",
   "created_by", "last_edited_time", "last_edited_by", "status"]

/-- The interactive answers one header receives during the customization
branch of `mapProperties`: the rename answer (empty keeps the name), the
change-type answer ("s" opens the type menu) and the eventually valid
1-based type selection (the source re-prompts until the selection is valid,
so an out-of-range value is modelled as keeping the current type). -/
structure MapAnswers where
  newName : String := ""
  changeType : String := ""
  typeChoice : Nat := 0
deriving DecidableEq

/-- Loop body of `mapProperties` (lines 230-285) for one header: default type
is `title` for the chosen title field and `rich_text` otherwise, an existing
destination property of the same name overrides the type unless the header
is the title field, and customization option "2" then applies the user's
rename and retype answers unconditionally. -/
def mapPropertiesEntry (currentProperties : String → Option String)
    (customizationOption : String) (titleField : String)
    (answers : String → MapAnswers) (header : String) : String × String :=
  let propertyName := header
  let propertyType0 := if header = titleField then "title" else "rich_text"
  let propertyType1 :=
    match currentProperties header with
    | some t => if header ≠ titleField then t else propertyType0
    | none => propertyType0
  if customizationOption = "2" then
    let a := answers header
    let propertyName1 :=
      if jsTrim a.newName ≠ "" then jsTrim a.newName else propertyName
    let propertyType2 :=
      if jsToLower (jsTrim a.changeType) = "s" then
        (if 1 ≤ a.typeChoice ∧ a.typeChoice ≤ propertyTypes.length then
          propertyTypes.getD (a.typeChoice - 1) propertyType1
        else propertyType1)
      else propertyType1
    (propertyName1, propertyType2)
  else (propertyName, propertyType1)

/-- Accumulating loop of `mapProperties`: assigns each header's entry into
the `mappedProperties` object in header order. -/
def mapPropertiesGo (currentProperties : String → Option String)
    (customizationOption : String) (titleField : String)
    (answers : String → MapAnswers) (acc : List (String × String × String)) :
    List String → List (String × String × String)
  | [] => acc
  | header :: rest =>
    mapPropertiesGo currentProperties customizationOption titleField answers
      (setKey acc header
        (mapPropertiesEntry currentProperties customizationOption titleField
          answers header))
      rest

/-- Function `mapProperties` (lines 227-288, identical in structure in the
Excel script): header to (destination name, destination type). -/
def mapProperties (headers : List String)
    (currentProperties : String → Option String)
    (customizationOption : String) (titleField : String)
    (answers : String → MapAnswers) : List (String × String × String) :=
  mapPropertiesGo currentProperties customizationOption titleField answers []
    headers

/-- Step 11 of `main` (lines 735-751): the duplicate-check field names are
split on commas, trimmed, cleared of empties, restricted to the discovered
headers, and when nothing survives under policy 1 or 2 the policy is forced
to "3". -/
def duplicateConfig (duplicateOption : String) (fieldsAnswer : String)
    (headers : List String) : String × List String :=
  if duplicateOption = "1" ∨ duplicateOption = "2" then
    let fs0 := ((splitComma fieldsAnswer).map (fun f => jsTrim f)).filter
      (fun f => f != "")
    let fs := fs0.filter (fun f => headers.contains f)
    if fs.length = 0 then ("3", fs) else (duplicateOption, fs)
  else (duplicateOption, [])

/-- First pass of `addNonDuplicateRecords` (lines 490-510): one create call
per record in list order; `ok1 i` is the destination's verdict on the call
for the record at index `i`.  Returns the call trace and the accumulated
`failedRecords`. -/
def addFirstPass (ok1 : Nat → Bool) :
    Nat → List SourceRecord → List SourceRecord × List SourceRecord
  | _, [] => ([], [])
  | i, entry :: rest =>
    let r := addFirstPass ok1 (i + 1) rest
    (entry :: r.1, if ok1 i then r.2 else entry :: r.2)

/-- Retry pass of `addNonDuplicateRecords` (lines 513-531): one create call
per failed record, collecting `stillFailedRecords`. -/
def addRetryPass (ok2 : Nat → Bool) :
    Nat → List SourceRecord → List SourceRecord × List SourceRecord
  | _, [] => ([], [])
  | i, entry :: rest =>
    let r := addRetryPass ok2 (i + 1) rest
    (entry :: r.1, if ok2 i then r.2 else entry :: r.2)

/-- Function `addNonDuplicateRecords` (lines 487-538), reduced to the trace
of create calls it issues and the records still failing after the single
retry pass (which are only reported, never retried again; the function
returns normally either way). -/
def addNonDuplicateRecords (ok1 ok2 : Nat → Bool)
    (recordsToAdd : List SourceRecord) :
    List SourceRecord × List SourceRecord :=
  let first := addFirstPass ok1 0 recordsToAdd
  let retry := addRetryPass ok2 0 first.2
  (first.1 ++ retry.1, retry.2)

/-- Function `updateDuplicateRecords` (lines 452-481), reduced to the trace
of update calls it issues and the records whose update failed (each failure
is caught, logged and dropped; no retry exists on the update path). -/
def updateDuplicateRecordsCalls (okU : Nat → Bool) :
    Nat → List (String × SourceRecord) →
      List (String × SourceRecord) × List (String × SourceRecord)
  | _, [] => ([], [])
  | i, d :: rest =>
    let r := updateDuplicateRecordsCalls okU (i + 1) rest
    (d :: r.1, if okU i then r.2 else d :: r.2)

/-! Concrete instances used by the closed witness and counterexample
theorems below. -/

/-- A destination schema with no properties. -/
def cpNone : String → Option String := fun _ => none

/-- The identity property mapping: every header keeps its name with type
rich_text. -/
def spId : String → String × String := fun h => (h, "rich_text")

/-- A title property carrying the single segment "x". -/
def propTitleX : NotionProperty := { title := some [{ plain_text := "x" }] }

/-- A title property carrying the single segment "y". -/
def propTitleY : NotionProperty := { title := some [{ plain_text := "y" }] }

/-- First destination record with title value "x". -/
def recA : NotionRecord := { id := "p1", properties := [("name", propTitleX)] }

/-- Second destination record with the same title value "x". -/
def recB : NotionRecord := { id := "p2", properties := [("name", propTitleX)] }

/-- A destination record with title value "y". -/
def recC : NotionRecord := { id := "p3", properties := [("name", propTitleY)] }

/-- A one-field source record. -/
def docAlice : SourceRecord := [("name", JValue.vstr "Alice")]

/-- A source record with an email hit and a non-empty phone value. -/
def docBob : SourceRecord :=
  [("name", JValue.vstr "Bob"), ("email", JValue.vstr "a@x.com"),
   ("phone", JValue.vstr "123")]

/-- A duplicate index slice holding the one email value of `docBob`. -/
def idxEmail : String → List (String × String) := fun f =>
  if f = "email" then [("a@x.com", "pid")] else []

/-- A title property whose text splits into two segments. -/
def propHello : NotionProperty :=
  { title := some [{ plain_text := "he" }, { plain_text := "llo" }],
    rich_text := some [{ plain_text := "ab" }, { plain_text := "c" }] }

/-- A destination property with every payload at its default. -/
def propEmpty : NotionProperty := {}

/-- Customization answers that retype header "a" to rich_text (type menu
entry 1) and leave every other header untouched. -/
def ansRetype : String → MapAnswers := fun h =>
  if h = "a" then { newName := "", changeType := "s", typeChoice := 1 }
  else { newName := "", changeType := "", typeChoice := 0 }

/-- A property mapping sending "age" to a number property and anything else
to rich_text. -/
def spAge : String → String × String := fun h =>
  if h = "age" then ("age", "number") else (h, "rich_text")

/-- A record whose "age" field is explicitly null. -/
def entryAge : SourceRecord :=
  [("name", JValue.vstr "Alice"), ("age", JValue.vnull)]

/-- A create outcome where only the call at index 0 fails. -/
def okExceptZero : Nat → Bool := fun i => !(i == 0)

/-- A call outcome where every call succeeds. -/
def okAll : Nat → Bool := fun _ => true

/-- A call outcome where every call fails. -/
def okNone : Nat → Bool := fun _ => false

/-! Helper lemmas about the JavaScript object and Map model. -/

/-- Reading back the key just written returns the written value. -/
theorem getKey_setKey_self {α : Type} (m : List (String × α)) (k : String)
    (v : α) : getKey (setKey m k v) k = some v := by
  induction m with
  | nil => simp [setKey, getKey]
  | cons p rest ih =>
    by_cases h : p.1 = k
    · simp [setKey, h, getKey]
    · simp [setKey, h, getKey, ih]

/-- Writing one key leaves every other key's value unchanged. -/
theorem getKey_setKey_ne {α : Type} (m : List (String × α)) (k : String)
    (v : α) (k' : String) (h : k' ≠ k) :
    getKey (setKey m k v) k' = getKey m k' := by
  have hkk : ¬ k = k' := fun e => h e.symm
  induction m with
  | nil =>
    simp only [setKey, getKey]
    rw [if_neg hkk]
  | cons p rest ih =>
    by_cases hp : p.1 = k
    · simp only [setKey, if_pos hp, getKey]
      rw [if_neg hkk, if_neg (show ¬ p.1 = k' by rw [hp]; exact hkk)]
    · simp only [setKey, if_neg hp, getKey]
      rw [ih]

/-- Every entry of an object after a write was already present or is the
written pair. -/
theorem mem_setKey {α : Type} {x : String × α} {m : List (String × α)}
    {k : String} {v : α} (h : x ∈ setKey m k v) : x ∈ m ∨ x = (k, v) := by
  induction m with
  | nil => simp [setKey] at h; simp [h]
  | cons p rest ih =>
    by_cases hp : p.1 = k
    · simp [setKey, hp] at h
      rcases h with h | h
      · right; simp [h]
      · left; simp [h]
    · simp [setKey, hp] at h
      rcases h with h | h
      · left; simp [h]
      · rcases ih h with h2 | h2
        · left; simp [h2]
        · right; exact h2

/-! Supporting lemmas for the create/update call traces. -/

/-- The first pass issues exactly one create call per record, in list
order. -/
theorem addFirstPass_calls (ok1 : Nat → Bool) (l : List SourceRecord) :
    ∀ i : Nat, (addFirstPass ok1 i l).1 = l := by
  induction l with
  | nil => intro i; rfl
  | cons e rest ih => intro i; simp [addFirstPass, ih]

/-- The retry pass issues exactly one create call per failed record, in
order. -/
theorem addRetryPass_calls (ok2 : Nat → Bool) (l : List SourceRecord) :
    ∀ i : Nat, (addRetryPass ok2 i l).1 = l := by
  induction l with
  | nil => intro i; rfl
  | cons e rest ih => intro i; simp [addRetryPass, ih]

/-- Records still failing after the retry pass come from the retried set. -/
theorem addRetryPass_failed_sub (ok2 : Nat → Bool) (l : List SourceRecord) :
    ∀ (i : Nat) (e : SourceRecord), e ∈ (addRetryPass ok2 i l).2 → e ∈ l := by
  induction l with
  | nil => intro i e he; simp [addRetryPass] at he
  | cons a rest ih =>
    intro i e he
    by_cases h : ok2 i
    · simp only [addRetryPass, h, if_pos] at he
      exact List.mem_cons_of_mem a (ih (i + 1) e he)
    · simp only [addRetryPass, h, if_neg, Bool.false_eq_true] at he
      rcases List.mem_cons.mp he with h2 | h2
      · simp [h2]
      · exact List.mem_cons_of_mem a (ih (i + 1) e h2)

/-- The update loop issues exactly one update call per queued duplicate, in
order, whatever the call outcomes are. -/
theorem updateDuplicateRecordsCalls_calls (okU : Nat → Bool)
    (dups : List (String × SourceRecord)) :
    ∀ i : Nat, (updateDuplicateRecordsCalls okU i dups).1 = dups := by
  induction dups with
  | nil => intro i; rfl
  | cons d rest ih => intro i; simp [updateDuplicateRecordsCalls, ih]

/-- Claim C7: under duplicate policy "none" (option 3) `exportToNotion`
returns immediately after queueing every input record for creation: the
create list is the full input, and no record is updated or skipped. -/
theorem export_policy_none_creates_all (data : List SourceRecord)
    (allRecords : List NotionRecord) (cp : String → Option String)
    (fields : List String) (opt : String) (np : List String)
    (h : opt = "3") :
    exportToNotionPlan data allRecords cp fields opt np
      = { toUpdate := [], toCreate := data } := by
  subst h
  simp [exportToNotionPlan]

/-- Witness for C7 at a concrete run. -/
theorem export_policy_none_creates_all_witness :
    exportToNotionPlan [docAlice] [recA] cpNone ["name"] "3" []
      = { toUpdate := [], toCreate := [docAlice] } :=
  export_policy_none_creates_all [docAlice] [recA] cpNone ["name"] "3" [] rfl

/-- Claim C8: `addNonDuplicateRecords` issues one create call per record in
a first pass over the whole batch, then exactly one retry call per
first-pass failure in a single second pass that follows the complete first
pass (the call trace is the batch followed by the failed set); records
still failing come only from the failed set and are merely reported — the
function returns normally, never aborting the run.  `updateDuplicateRecords`
by contrast issues exactly one update call per queued record: update
failures are never retried. -/
theorem create_retry_once_update_never (ok1 ok2 okU : Nat → Bool)
    (recs : List SourceRecord) (dups : List (String × SourceRecord)) :
    (addNonDuplicateRecords ok1 ok2 recs).1
        = recs ++ (addFirstPass ok1 0 recs).2
      ∧ (∀ e, e ∈ (addNonDuplicateRecords ok1 ok2 recs).2 →
          e ∈ (addFirstPass ok1 0 recs).2)
      ∧ (∀ i, (updateDuplicateRecordsCalls okU i dups).1 = dups) := by
  refine ⟨?_, ?_, ?_⟩
  · show (addFirstPass ok1 0 recs).1
        ++ (addRetryPass ok2 0 (addFirstPass ok1 0 recs).2).1
      = recs ++ (addFirstPass ok1 0 recs).2
    rw [addFirstPass_calls, addRetryPass_calls]
  · intro e he
    exact addRetryPass_failed_sub ok2 _ 0 e he
  · intro i
    exact updateDuplicateRecordsCalls_calls okU dups i

/-- Witness for C8: with the first create call failing and every retry
failing, the trace is the two-record batch followed by one retry of the
failed record, and the still-failed record indeed comes from the failed
set. -/
theorem create_retry_once_update_never_witness :
    (addNonDuplicateRecords okExceptZero okNone [docAlice, docBob]).1
        = [docAlice, docBob]
          ++ (addFirstPass okExceptZero 0 [docAlice, docBob]).2
      ∧ docAlice ∈ (addFirstPass okExceptZero 0 [docAlice, docBob]).2 :=
  ⟨(create_retry_once_update_never okExceptZero okNone okAll
      [docAlice, docBob] []).1,
   (create_retry_once_update_never okExceptZero okNone okAll
      [docAlice, docBob] []).2.1 docAlice (by decide)⟩

/-- Claim C10: when policy 1 or 2 is chosen but none of the supplied
duplicate-check names survives trimming, dropping empties and restriction
to the discovered headers, `main` silently forces policy "3", so no
duplicate index is built and every record is queued for creation. -/
theorem invalid_key_fields_force_policy_three (opt ans : String)
    (headers : List String) (data : List SourceRecord)
    (allRecords : List NotionRecord) (cp : String → Option String)
    (np : List String)
    (hopt : opt = "1" ∨ opt = "2")
    (hempty : (((splitComma ans).map (fun f => jsTrim f)).filter
        (fun f => f != "")).filter (fun f => headers.contains f) = []) :
    duplicateConfig opt ans headers = ("3", [])
      ∧ exportToNotionPlan data allRecords cp
          (duplicateConfig opt ans headers).2
          (duplicateConfig opt ans headers).1 np
        = { toUpdate := [], toCreate := data } := by
  have hdc : duplicateConfig opt ans headers = ("3", []) := by
    simp only [duplicateConfig, if_pos hopt]
    rw [hempty]
    simp
  refine ⟨hdc, ?_⟩
  rw [hdc]
  simp [exportToNotionPlan]

/-- Witness for C10: the answer " , email " against headers ["name"] leaves
no valid key field, and the run creates its single record. -/
theorem invalid_key_fields_force_policy_three_witness :
    duplicateConfig "1" " , email " ["name"] = ("3", [])
      ∧ exportToNotionPlan [docAlice] [] cpNone
          (duplicateConfig "1" " , email " ["name"]).2
          (duplicateConfig "1" " , email " ["name"]).1 []
        = { toUpdate := [], toCreate := [docAlice] } :=
  invalid_key_fields_force_policy_three "1" " , email " ["name"] [docAlice]
    [] cpNone [] (Or.inl rfl) (by decide)

/-- Every pair in the update-properties object comes from a record entry
whose field name passed the newly-created filter. -/
theorem mem_updatePropertiesGo (np : List String)
    (sp : String → String × String) :
    ∀ (doc : SourceRecord) (acc : List (String × PropertyPayload))
      (k : String) (payload : PropertyPayload),
      (k, payload) ∈ updatePropertiesGo true np sp acc doc →
      (k, payload) ∈ acc ∨ ∃ h v, (h, v) ∈ doc ∧ h ∈ np ∧ k = (sp h).1 := by
  intro doc
  induction doc with
  | nil => intro acc k payload h; exact Or.inl h
  | cons e rest ih =>
    intro acc k payload hmem
    rcases e with ⟨header, value⟩
    by_cases hin : header ∈ np
    · have hstep : updatePropertiesGo true np sp acc ((header, value) :: rest)
          = updatePropertiesGo true np sp
              (setKey acc (sp header).1
                (buildPropertyPayload (sp header).2 (stringValueOf value)))
              rest := by
        simp [updatePropertiesGo, hin]
      rw [hstep] at hmem
      rcases ih _ k payload hmem with h | h
      · rcases mem_setKey h with h2 | h2
        · exact Or.inl h2
        · refine Or.inr ⟨header, value, by simp, hin, ?_⟩
          exact (Prod.ext_iff.mp h2).1
      · rcases h with ⟨h', v', hmem', hnp', hk'⟩
        exact Or.inr ⟨h', v', List.mem_cons_of_mem _ hmem', hnp', hk'⟩
    · have hstep : updatePropertiesGo true np sp acc ((header, value) :: rest)
          = updatePropertiesGo true np sp acc rest := by
        simp [updatePropertiesGo, hin]
      rw [hstep] at hmem
      rcases ih acc k payload hmem with h | h
      · exact Or.inl h
      · rcases h with ⟨h', v', hmem', hnp', hk'⟩
        exact Or.inr ⟨h', v', List.mem_cons_of_mem _ hmem', hnp', hk'⟩

/-- Claim C6: duplicate probing examines the key fields in the
caller-supplied order; a field whose record value is undefined or null is
skipped without an index lookup; the first field whose stringified value
hits the index determines the matched identity for any remaining fields;
a field that misses passes control to the remaining fields; and a record
with no hit on any field is queued for creation. -/
theorem check_duplicate_first_key_wins
    (index : String → List (String × String)) (doc : SourceRecord)
    (field : String) (rest : List String) :
    (recordGet doc field = none →
        checkDuplicate index doc (field :: rest)
          = checkDuplicate index doc rest)
  ∧ (recordGet doc field = some JValue.vnull →
        checkDuplicate index doc (field :: rest)
          = checkDuplicate index doc rest)
  ∧ (∀ v id, recordGet doc field = some v → v ≠ JValue.vnull →
        getKey (index field) (jstr v) = some id →
        checkDuplicate index doc (field :: rest) = some id)
  ∧ (∀ v, recordGet doc field = some v → v ≠ JValue.vnull →
        getKey (index field) (jstr v) = none →
        checkDuplicate index doc (field :: rest)
          = checkDuplicate index doc rest)
  ∧ (∀ (fields np : List String) (opt : String)
        (data : List SourceRecord),
        checkDuplicate index doc fields = none →
        (classifyRecords index fields np opt (doc :: data)).nonDuplicatesToAdd
          = doc ::
            (classifyRecords index fields np opt data).nonDuplicatesToAdd) := by
  refine ⟨?_, ?_, ?_, ?_, ?_⟩
  · intro h; simp [checkDuplicate, h]
  · intro h; simp [checkDuplicate, h]
  · intro v id hv hnn hk; simp [checkDuplicate, hv, hnn, hk]
  · intro v hv hnn hk; simp [checkDuplicate, hv, hnn, hk]
  · intro fields np opt data h; simp [classifyRecords, h]

/-- Witness for C6: the email field of `docBob` hits the index and the
probe returns its identity without consulting the remaining field. -/
theorem check_duplicate_first_key_wins_witness :
    checkDuplicate idxEmail docBob ["email", "name"] = some "pid" :=
  (check_duplicate_first_key_wins idxEmail docBob "email" ["name"]).2.2.1
    (JValue.vstr "a@x.com") "pid" rfl (by decide) rfl

/-- Claim C3: under policy 2, a duplicate record is queued for update
exactly when some newly-created property has a defined, non-null, non-empty
value on it (and is otherwise dropped entirely, joining neither the update
nor the create queue); the queued update's properties object only carries
properties coming from fields in the newly-created set. -/
theorem update_new_only_write_iff
    (index : String → List (String × String)) (fields np : List String)
    (sp : String → String × String) (doc : SourceRecord) (id : String)
    (data : List SourceRecord)
    (hdup : checkDuplicate index doc fields = some id) :
    (hasNewPropertyValues np doc = true →
        classifyRecords index fields np "2" (doc :: data)
          = { duplicatesForUpdate :=
                (id, doc) ::
                  (classifyRecords index fields np "2" data).duplicatesForUpdate,
              nonDuplicatesToAdd :=
                (classifyRecords index fields np "2" data).nonDuplicatesToAdd })
  ∧ (hasNewPropertyValues np doc = false →
        classifyRecords index fields np "2" (doc :: data)
          = classifyRecords index fields np "2" data)
  ∧ (hasNewPropertyValues np doc = true ↔
        ∃ p, p ∈ np ∧ ∃ v, recordGet doc p = some v
          ∧ v ≠ JValue.vnull ∧ v ≠ JValue.vstr "")
  ∧ (∀ k payload,
        (k, payload) ∈ updateDuplicateProperties true np sp doc →
        ∃ h v, (h, v) ∈ doc ∧ h ∈ np ∧ k = (sp h).1) := by
  refine ⟨?_, ?_, ?_, ?_⟩
  · intro hHas; simp [classifyRecords, hdup, hHas]
  · intro hHas; simp [classifyRecords, hdup, hHas]
  · constructor
    · intro h
      rcases List.any_eq_true.mp h with ⟨p, hp, hpred⟩
      refine ⟨p, hp, ?_⟩
      cases hrg : recordGet doc p with
      | none => rw [hrg] at hpred; exact absurd hpred (by simp)
      | some v =>
        rw [hrg] at hpred
        exact ⟨v, rfl, of_decide_eq_true hpred⟩
    · rintro ⟨p, hp, v, hrg, h1, h2⟩
      apply List.any_eq_true.mpr
      refine ⟨p, hp, ?_⟩
      rw [hrg]
      exact decide_eq_true ⟨h1, h2⟩
  · intro k payload hm
    rcases mem_updatePropertiesGo np sp doc [] k payload hm with h | h
    · exact absurd h (by simp)
    · exact h

/-- Witness for C3: `docBob` is a duplicate by email, carries a value for
the newly-created "phone" property, and is queued for update. -/
theorem update_new_only_write_iff_witness :
    classifyRecords idxEmail ["email"] ["phone"] "2" [docBob]
      = { duplicatesForUpdate := [("pid", docBob)],
          nonDuplicatesToAdd := [] } := by
  have h := (update_new_only_write_iff idxEmail ["email"] ["phone"] spId
    docBob "pid" [] (by decide)).1 (by decide)
  exact h

/-- Processing entries none of whose mapped names equals `name` leaves the
payload at `name` unchanged. -/
theorem getKey_buildPagePayloadGo_other (sp : String → String × String)
    (name : String) :
    ∀ (entry : SourceRecord) (props : List (String × PropertyPayload))
      (children : List String),
      (∀ h, h ∈ entry.map Prod.fst → (sp h).1 ≠ name) →
      getKey (buildPagePayloadGo sp props children entry).1 name
        = getKey props name := by
  intro entry
  induction entry with
  | nil => intro props children _; rfl
  | cons e rest ih =>
    intro props children hno
    rcases e with ⟨header, value⟩
    have hname : (sp header).1 ≠ name := hno header (by simp)
    simp only [buildPagePayloadGo]
    rw [ih _ _ (fun h hm => hno h (by simp [hm]))]
    exact getKey_setKey_ne _ _ _ _ (fun e2 => hname e2.symm)

/-- The payload object built for a record maps the property name of any of
its fields to the typed payload of that field's (coerced) value, provided
field names are unique and mapped names do not collide. -/
theorem getKey_buildPagePayloadGo (sp : String → String × String)
    (header : String) :
    ∀ (entry : SourceRecord) (v : JValue)
      (props : List (String × PropertyPayload)) (children : List String),
      (header, v) ∈ entry →
      (entry.map Prod.fst).Nodup →
      (∀ h, h ∈ entry.map Prod.fst → h ≠ header →
        (sp h).1 ≠ (sp header).1) →
      getKey (buildPagePayloadGo sp props children entry).1 (sp header).1
        = some (buildPropertyPayload (sp header).2 (stringValueOf v)) := by
  intro entry
  induction entry with
  | nil => intro v props children hmem; exact absurd hmem (by simp)
  | cons e rest ih =>
    intro v props children hmem hnd hinj
    rcases e with ⟨h0, v0⟩
    simp only [List.map_cons] at hnd hinj
    by_cases hh : h0 = header
    · subst hh
      have hnotin : h0 ∉ rest.map Prod.fst := (List.nodup_cons.mp hnd).1
      have hv : v = v0 := by
        rcases List.mem_cons.mp hmem with h | h
        · exact (Prod.ext_iff.mp h).2
        · exact absurd (List.mem_map.mpr ⟨(h0, v), h, rfl⟩) hnotin
      subst hv
      simp only [buildPagePayloadGo]
      rw [getKey_buildPagePayloadGo_other sp _ rest _ _ ?_]
      · exact getKey_setKey_self _ _ _
      · intro h hm
        have hne : h ≠ h0 := fun he => hnotin (he ▸ hm)
        exact hinj h (by simp [hm]) hne
    · have hmem' : (header, v) ∈ rest := by
        rcases List.mem_cons.mp hmem with h | h
        · exact absurd (Prod.ext_iff.mp h).1.symm hh
        · exact h
      simp only [buildPagePayloadGo]
      exact ih v _ _ hmem' (List.nodup_cons.mp hnd).2
        (fun h hm hne => hinj h (by simp [hm]) hne)

/-- Claim C9: `buildPagePayload` emits a typed payload for every field
present on the record even when its value is null: the value is coerced to
the empty string and encoded under the field's mapped type, so a
present-but-null field is never omitted, and a null number field carries
`parseFloat` of the empty string, which is NaN. -/
theorem build_page_payload_null_emitted (sp : String → String × String)
    (entry : SourceRecord) (header : String)
    (hmem : (header, JValue.vnull) ∈ entry)
    (hnd : (entry.map Prod.fst).Nodup)
    (hinj : ∀ h, h ∈ entry.map Prod.fst → h ≠ header →
      (sp h).1 ≠ (sp header).1) :
    getKey (buildPagePayload entry sp).1 ((sp header).1)
        = some (buildPropertyPayload (sp header).2 "")
      ∧ parseFloat "" = JNum.nan
      ∧ buildPropertyPayload "number" ""
          = PropertyPayload.number JNum.nan := by
  refine ⟨?_, by decide, by decide⟩
  exact getKey_buildPagePayloadGo sp header entry JValue.vnull [] []
    hmem hnd hinj

/-- Witness for C9: the null "age" field of `entryAge` still receives a
number payload. -/
theorem build_page_payload_null_emitted_witness :
    getKey (buildPagePayload entryAge spAge).1 ((spAge "age").1)
      = some (buildPropertyPayload (spAge "age").2 "") := by
  refine (build_page_payload_null_emitted spAge entryAge "age"
    (by decide) (by decide) ?_).1
  intro h hm hne
  have hh : h = "name" ∨ h = "age" := by simpa [entryAge] using hm
  rcases hh with rfl | rfl
  · decide
  · exact absurd rfl hne

/-- A value actually inserted into the DuplicateIndex is never the empty
string (the fill loop guards on truthiness). -/
theorem recordIndexValue_ne_empty (r : NotionRecord) (field : String)
    (pt : Option String) (v : String)
    (h : Mongo.recordIndexValue r field pt = some v) : v ≠ "" := by
  unfold Mongo.recordIndexValue at h
  rcases hk : getKey r.properties field with _ | prop
  · rw [hk] at h; cases pt <;> simp at h
  · rw [hk] at h
    cases pt with
    | none => simp at h
    | some t =>
      simp only at h
      split_ifs at h with hv
      exact Option.some.inj h ▸ hv

/-- Filling the index never creates an entry at the empty-string key. -/
theorem getKey_buildFieldIndexGo_empty (field : String) (pt : Option String) :
    ∀ (l : List NotionRecord) (m : List (String × String)),
      getKey m "" = none →
      getKey (Mongo.buildFieldIndexGo field pt m l) "" = none := by
  intro l
  induction l with
  | nil => intro m hm; exact hm
  | cons r rest ih =>
    intro m hm
    simp only [Mongo.buildFieldIndexGo]
    rcases hr : Mongo.recordIndexValue r field pt with _ | v
    · exact ih m hm
    · apply ih
      show getKey (setKey m v r.id) "" = none
      rw [getKey_setKey_ne m v r.id ""
        (fun e2 => recordIndexValue_ne_empty r field pt v hr e2.symm)]
      exact hm

/-- Claim C4: duplicate-index value extraction is type-aware in both
scripts: `title` and `rich_text` concatenate the segments' plain text; the
scalar types handled by each script's switch pass their scalar through as a
string (empty when the scalar is null); any type outside the switch falls
to the default branch and yields the empty string; and since the fill loop
skips falsy values, the index never holds an entry under the empty string,
so an empty extraction can never match any source value. -/
theorem get_property_value_type_aware (p : NotionProperty) :
    (∀ rts, p.title = some rts →
        Mongo.getPropertyValue (some p) (some "title")
          = String.join (rts.map RichText.plain_text))
  ∧ (∀ rts, p.rich_text = some rts →
        Mongo.getPropertyValue (some p) (some "rich_text")
          = String.join (rts.map RichText.plain_text))
  ∧ Mongo.getPropertyValue (some p) (some "url") = p.url.getD ""
  ∧ Mongo.getPropertyValue (some p) (some "phone_number")
      = p.phone_number.getD ""
  ∧ (∀ t, t ∉ (["url", "phone_number", "rich_text", "title"] : List String) →
        Mongo.getPropertyValue (some p) (some t) = "")
  ∧ (∀ rts, p.title = some rts →
        Excel.getPropertyValue (some p) (some "title")
          = String.join (rts.map RichText.plain_text))
  ∧ (∀ rts, p.rich_text = some rts →
        Excel.getPropertyValue (some p) (some "rich_text")
          = String.join (rts.map RichText.plain_text))
  ∧ Excel.getPropertyValue (some p) (some "url") = p.url.getD ""
  ∧ Excel.getPropertyValue (some p) (some "phone_number")
      = p.phone_number.getD ""
  ∧ Excel.getPropertyValue (some p) (some "email") = p.email.getD ""
  ∧ Excel.getPropertyValue (some p) (some "number")
      = (p.number.map (fun n => toString n)).getD ""
  ∧ Excel.getPropertyValue (some p) (some "select") = p.select.getD ""
  ∧ Excel.getPropertyValue (some p) (some "status") = p.status.getD ""
  ∧ Excel.getPropertyValue (some p) (some "multi_select")
      = String.intercalate "," p.multi_select
  ∧ Excel.getPropertyValue (some p) (some "checkbox")
      = (if p.checkbox then "true" else "false")
  ∧ (∀ t, t ∉ (["url", "phone_number", "rich_text", "title", "email",
        "number", "select", "status", "multi_select", "checkbox"] :
          List String) →
        Excel.getPropertyValue (some p) (some t) = "")
  ∧ (∀ (records : List NotionRecord) (field : String) (pt : Option String),
        getKey (Mongo.buildFieldIndex records field pt) "" = none) := by
  refine ⟨?_, ?_, ?_, ?_, ?_, ?_, ?_, ?_, ?_, ?_, ?_, ?_, ?_, ?_, ?_, ?_, ?_⟩
  · intro rts h; simp [Mongo.getPropertyValue, h]
  · intro rts h; simp [Mongo.getPropertyValue, h]
  · simp [Mongo.getPropertyValue]
  · simp [Mongo.getPropertyValue]
  · intro t ht
    simp only [List.mem_cons, List.not_mem_nil, or_false, not_or] at ht
    obtain ⟨h1, h2, h3, h4⟩ := ht
    simp [Mongo.getPropertyValue, h1, h2, h3, h4]
  · intro rts h; simp [Excel.getPropertyValue, h]
  · intro rts h; simp [Excel.getPropertyValue, h]
  · simp [Excel.getPropertyValue]
  · simp [Excel.getPropertyValue]
  · simp [Excel.getPropertyValue]
  · cases hn : p.number <;> simp [Excel.getPropertyValue, hn]
  · simp [Excel.getPropertyValue]
  · simp [Excel.getPropertyValue]
  · simp [Excel.getPropertyValue]
  · simp [Excel.getPropertyValue]
  · intro t ht
    simp only [List.mem_cons, List.not_mem_nil, or_false, not_or] at ht
    obtain ⟨h1, h2, h3, h4, h5, h6, h7, h8, h9, h10⟩ := ht
    simp [Excel.getPropertyValue, h1, h2, h3, h4, h5, h6, h7, h8, h9, h10]
  · intro records field pt
    exact getKey_buildFieldIndexGo_empty field pt records [] rfl

/-- Witness for C4: concrete extractions — a two-segment title
concatenates, the Mongo switch sends `email` to its default branch, the
Excel switch sends `date` to its default branch, and the index built from
two records has no empty-string entry. -/
theorem get_property_value_type_aware_witness :
    Mongo.getPropertyValue (some propHello) (some "title")
        = String.join ([⟨"he"⟩, ⟨"llo"⟩].map RichText.plain_text)
      ∧ Mongo.getPropertyValue (some propEmpty) (some "email") = ""
      ∧ Excel.getPropertyValue (some propEmpty) (some "date") = ""
      ∧ getKey (Mongo.buildFieldIndex [recA, recB] "name" (some "title")) ""
          = none := by
  obtain ⟨ha, -, -, -, -, -, -, -, -, -, -, -, -, -, -, -, -⟩ :=
    get_property_value_type_aware propHello
  obtain ⟨-, -, -, -, hb, -, -, -, -, -, -, -, -, -, -, hc, hd⟩ :=
    get_property_value_type_aware propEmpty
  exact ⟨ha [⟨"he"⟩, ⟨"llo"⟩] rfl, hb "email" (by decide),
    hc "date" (by decide), hd [recA, recB] "name" (some "title")⟩

/-- Claim C2 (amended): a schema update rejected by the destination is
caught by the try/catch inside `ensurePropertiesExist`, which logs it and
returns the empty list of newly-created properties; no error reaches the
caller, so the run continues into the export phase.  (When no update was
needed the outcome is never consulted and the added set is empty as well,
so the result is the empty list for every input.) -/
theorem ensure_properties_error_swallowed (cp : String → Option String)
    (headers : List String) (sp : String → String × String) (e : String) :
    ensurePropertiesExist cp headers sp (Except.error e) = [] := by
  unfold ensurePropertiesExist ensurePropertiesExistE
  by_cases h : (schemaDiffGo cp sp [] [] headers).1.length > 0
    ∨ (schemaDiffGo cp sp [] [] headers).2.length > 0
  · rw [if_pos h]
  · rw [if_neg h]
    push_neg at h
    have hadd : (schemaDiffGo cp sp [] [] headers).1 = [] :=
      List.length_eq_zero.mp (Nat.le_zero.mp h.1)
    simp [hadd]

/-- Counterexample refuting C2 as stated: with one property to create and
the destination rejecting the schema update, `ensurePropertiesExist`
returns the ordinary value `[]` instead of propagating the error, and the
run goes on to create its record. -/
theorem ensure_properties_abort_refuted :
    ensurePropertiesExist cpNone ["a"] spId
        (Except.error "schema update rejected") = []
      ∧ (exportToNotionPlan [docAlice] [] cpNone [] "3"
          (ensurePropertiesExist cpNone ["a"] spId
            (Except.error "schema update rejected"))).toCreate
        = [docAlice] := by
  refine ⟨by decide, by decide⟩

/-- Moving the fill loop over an append processes the left part first. -/
theorem buildFieldIndexGo_append (field : String) (pt : Option String) :
    ∀ (l1 l2 : List NotionRecord) (m : List (String × String)),
      Mongo.buildFieldIndexGo field pt m (l1 ++ l2)
        = Mongo.buildFieldIndexGo field pt
            (Mongo.buildFieldIndexGo field pt m l1) l2 := by
  intro l1
  induction l1 with
  | nil => intro l2 m; rfl
  | cons r rest ih =>
    intro l2 m
    simp only [List.cons_append, Mongo.buildFieldIndexGo]
    exact ih l2 _

/-- Records contributing some other value (or nothing) for a field leave
the index entry at `v` unchanged. -/
theorem getKey_buildFieldIndexGo_untouched (field : String)
    (pt : Option String) (v : String) :
    ∀ (l : List NotionRecord) (m : List (String × String)),
      (∀ r2 ∈ l, Mongo.recordIndexValue r2 field pt ≠ some v) →
      getKey (Mongo.buildFieldIndexGo field pt m l) v = getKey m v := by
  intro l
  induction l with
  | nil => intro m _; rfl
  | cons r rest ih =>
    intro m hno
    simp only [Mongo.buildFieldIndexGo]
    rcases hr : Mongo.recordIndexValue r field pt with _ | u
    · exact ih m (fun r2 h2 => hno r2 (List.mem_cons_of_mem _ h2))
    · rw [ih _ (fun r2 h2 => hno r2 (List.mem_cons_of_mem _ h2))]
      show getKey (setKey m u r.id) v = getKey m v
      apply getKey_setKey_ne
      intro he
      exact hno r (List.mem_cons_self r rest) (by rw [hr, he])

/-- Claim C1 (amended): for a key field and a stringified value, the
identity stored in the DuplicateIndex is that of the LAST destination
record in scan order whose extracted value equals it — `Map.set` is called
unconditionally, so a later record with the same value replaces the stored
identity. -/
theorem duplicate_index_last_match_wins (field : String) (pt : Option String)
    (l1 l2 : List NotionRecord) (r : NotionRecord) (v : String)
    (hr : Mongo.recordIndexValue r field pt = some v)
    (hlater : ∀ r2 ∈ l2, Mongo.recordIndexValue r2 field pt ≠ some v) :
    getKey (Mongo.buildFieldIndex (l1 ++ r :: l2) field pt) v
      = some r.id := by
  unfold Mongo.buildFieldIndex
  rw [buildFieldIndexGo_append]
  simp only [Mongo.buildFieldIndexGo]
  rw [hr]
  rw [getKey_buildFieldIndexGo_untouched field pt v l2 _ hlater]
  exact getKey_setKey_self _ _ _

/-- Witness for the amended C1 at a concrete scan. -/
theorem duplicate_index_last_match_wins_witness :
    getKey (Mongo.buildFieldIndex ([recA] ++ recC :: []) "name"
      (some "title")) "y" = some recC.id :=
  duplicate_index_last_match_wins "name" (some "title") [recA] [] recC "y"
    (by decide) (fun r2 h2 => absurd h2 (List.not_mem_nil r2))

/-- Counterexample refuting C1 as stated: `recA` is the first record in
scan order whose extracted "name" value is "x" and its identity is "p1",
yet after scanning `recB` (same value, identity "p2") the index stores
"p2", not the first-seen identity. -/
theorem duplicate_index_first_match_refuted :
    Mongo.recordIndexValue recA "name" (some "title") = some "x"
      ∧ recA.id = "p1"
      ∧ getKey (Mongo.buildFieldIndex [recA, recB] "name" (some "title")) "x"
          = some "p2"
      ∧ ("p2" : String) ≠ "p1" := by
  refine ⟨by decide, rfl, by decide, by decide⟩

/-- Writing an absent key appends the entry at the end. -/
theorem setKey_of_not_mem {α : Type} (m : List (String × α)) (k : String)
    (v : α) (h : k ∉ m.map Prod.fst) : setKey m k v = m ++ [(k, v)] := by
  induction m with
  | nil => rfl
  | cons p rest ih =>
    simp only [List.map_cons, List.mem_cons, not_or] at h
    have hp : ¬ p.1 = k := fun e2 => h.1 e2.symm
    simp only [setKey, if_neg hp, List.cons_append]
    rw [ih h.2]

/-- With pairwise-distinct headers none of which collides with the
accumulator, the mapping loop appends one entry per header in order. -/
theorem mapPropertiesGo_eq (cp : String → Option String)
    (opt titleField : String) (answers : String → MapAnswers) :
    ∀ (headers : List String) (acc : List (String × String × String)),
      headers.Nodup → (∀ h ∈ headers, h ∉ acc.map Prod.fst) →
      mapPropertiesGo cp opt titleField answers acc headers
        = acc ++ headers.map
            (fun h => (h, mapPropertiesEntry cp opt titleField answers h)) := by
  intro headers
  induction headers with
  | nil => intro acc _ _; simp [mapPropertiesGo]
  | cons h0 rest ih =>
    intro acc hnd hdisj
    have hnotin : h0 ∉ acc.map Prod.fst :=
      hdisj h0 (List.mem_cons_self h0 rest)
    simp only [mapPropertiesGo]
    rw [setKey_of_not_mem acc h0 _ hnotin]
    rw [ih _ (List.nodup_cons.mp hnd).2 ?_]
    · simp
    · intro h hm
      rw [List.map_append]
      simp only [List.mem_append, not_or]
      refine ⟨hdisj h (List.mem_cons_of_mem _ hm), ?_⟩
      simp only [List.map_cons, List.map_nil, List.mem_singleton]
      intro he
      exact (List.nodup_cons.mp hnd).1 (he ▸ hm)

/-- `mapProperties` over pairwise-distinct headers is exactly one entry per
header in order. -/
theorem mapProperties_eq_map (headers : List String)
    (cp : String → Option String) (opt titleField : String)
    (answers : String → MapAnswers) (hnd : headers.Nodup) :
    mapProperties headers cp opt titleField answers
      = headers.map
          (fun h => (h, mapPropertiesEntry cp opt titleField answers h)) := by
  unfold mapProperties
  rw [mapPropertiesGo_eq cp opt titleField answers headers [] hnd
    (by intro h _; simp)]
  simp

/-- With customization disabled, one header's entry keeps its own name, the
title field gets type title, and any other header gets its existing
destination type, defaulting to rich_text. -/
theorem mapPropertiesEntry_default (cp : String → Option String)
    (opt titleField : String) (answers : String → MapAnswers) (h : String)
    (hopt : opt ≠ "2") :
    mapPropertiesEntry cp opt titleField answers h
      = (h, if h = titleField then "title"
            else match cp h with | some t => t | none => "rich_text") := by
  unfold mapPropertiesEntry
  rw [if_neg hopt]
  by_cases ht : h = titleField
  · rcases hc : cp h with _ | t <;> simp [ht, hc]
  · rcases hc : cp h with _ | t <;> simp [ht, hc]

/-- A Boolean predicate holding on exactly one element of a duplicate-free
list counts to one. -/
theorem countP_eq_one_unique {α : Type} (p : α → Bool) :
    ∀ (l : List α) (a : α), l.Nodup → a ∈ l →
      (∀ x ∈ l, p x = true ↔ x = a) → l.countP p = 1 := by
  intro l
  induction l with
  | nil => intro a _ ha _; exact absurd ha (List.not_mem_nil a)
  | cons b rest ih =>
    intro a hnd ha hp
    by_cases hb : b = a
    · subst hb
      rw [List.countP_cons_of_pos _ _ ((hp b (by simp)).mpr rfl)]
      have hz : rest.countP p = 0 := by
        rw [List.countP_eq_zero]
        intro x hx hpx
        have hxa := (hp x (List.mem_cons_of_mem _ hx)).mp hpx
        exact (List.nodup_cons.mp hnd).1 (hxa ▸ hx)
      rw [hz]
    · have ha' : a ∈ rest := by
        rcases List.mem_cons.mp ha with h | h
        · exact absurd h.symm hb
        · exact h
      rw [List.countP_cons_of_neg]
      · exact ih a (List.nodup_cons.mp hnd).2 ha'
          (fun x hx => hp x (List.mem_cons_of_mem _ hx))
      · exact fun hpb => hb ((hp b (by simp)).mp hpb)

/-- Claim C5 (amended): customization overrides do take effect, so the
single-title invariant only holds for the runs that skip customization;
for those, with pairwise-distinct headers containing the title field and no
other header owning an existing destination property of type title, the
mapping assigns type title to exactly one header. -/
theorem map_properties_single_title_default (headers : List String)
    (cp : String → Option String) (opt titleField : String)
    (answers : String → MapAnswers)
    (hnd : headers.Nodup) (htf : titleField ∈ headers)
    (hopt : opt ≠ "2")
    (hother : ∀ h ∈ headers, h ≠ titleField → cp h ≠ some "title") :
    List.countP (fun e => e.2.2 == "title")
        (mapProperties headers cp opt titleField answers) = 1 := by
  rw [mapProperties_eq_map headers cp opt titleField answers hnd]
  rw [List.countP_map]
  apply countP_eq_one_unique _ headers titleField hnd htf
  intro x hx
  simp only [Function.comp_apply]
  rw [mapPropertiesEntry_default cp opt titleField answers x hopt]
  constructor
  · intro hpx
    by_contra hne
    rw [if_neg hne] at hpx
    rcases hc : cp x with _ | t
    · rw [hc] at hpx
      dsimp only at hpx
      exact absurd (eq_of_beq hpx) (by decide)
    · rw [hc] at hpx
      dsimp only at hpx
      exact hother x hx hne (by rw [hc, eq_of_beq hpx])
  · intro he
    rw [if_pos he]
    rfl

/-- Witness for the amended C5: two headers, empty destination schema, no
customization. -/
theorem map_properties_single_title_default_witness :
    List.countP (fun e => e.2.2 == "title")
        (mapProperties ["a", "b"] cpNone "1" "a" ansRetype) = 1 :=
  map_properties_single_title_default ["a", "b"] cpNone "1" "a" ansRetype
    (by decide) (by decide) (by decide)
    (by intro h hm hne; simp [cpNone])

/-- Counterexample refuting C5 as stated: under customization the user
retypes the sole title header "a" to rich_text (menu entry 1) and the
resulting mapping has no title property at all — the override takes
effect. -/
theorem map_properties_title_override_refuted :
    List.countP (fun e => e.2.2 == "title")
        (mapProperties ["a", "b"] cpNone "2" "a" ansRetype) = 0 := by
  decide
